import Mathlib

/-!
Verification development for the LocalCaption capture-to-transcription core
(`localcaption/audio/capture.py` and `localcaption/asr/engine.py`).

Modelling conventions of the shallow embedding:
* float32 samples and Python float arithmetic are embedded as exact rationals;
  numpy arrays become `List ℚ`;
* the sherpa-onnx decoder is treated as an oracle: one call to `accept_pcm`
  is parametrised by the successive hypothesis strings fetched inside the
  `while is_ready` loop, the `is_endpoint` flag, and the hypothesis fetched at
  the endpoint;
* the websocket send of the Deepgram backend is parametrised by a boolean
  saying whether `self._ws.send` raised; Python exceptions in the consumer
  callback become `Except Unit Unit`;
* wall-clock latency measurement (`time.perf_counter`) is outside the model,
  so `RecognitionResult` carries only `text` and `isFinal`.
-/

namespace LocalCaption

/-- An audio frame as placed on the capture queue: copied samples, the stream
sample rate and the capture timestamp (`AudioCapture._on_audio`,
capture.py lines 90-99). -/
structure AudioFrame where
  samples : List ℚ
  sampleRate : ℕ
  timestamp : ℚ
deriving DecidableEq

/-- `queue.Queue.put` on `AudioCapture._queue` (capture.py line 34): the queue
is constructed as `queue.Queue()` with no `maxsize`, hence unbounded; `put`
appends at the back and never blocks and never drops a frame. -/
def qput (q : List AudioFrame) (f : AudioFrame) : List AudioFrame :=
  q ++ [f]

/-- Push a whole producer sequence of frames, oldest first. -/
def qputAll (q : List AudioFrame) (fs : List AudioFrame) : List AudioFrame :=
  fs.foldl qput q

/-- The spec claim about the capture queue, stated from the spec's words for
comparison with the source queue: with fixed capacity `N`, after any sequence
of pushes the queue holds at most `N` frames. -/
def boundedQueueClaim (N : ℕ) (fs : List AudioFrame) : Prop :=
  (qputAll [] fs).length ≤ N

/-- Python `str.strip()` over the ASCII whitespace characters: drop leading
and trailing whitespace. -/
def pyStrip (s : String) : String :=
  ⟨((s.data.dropWhile Char.isWhitespace).reverse.dropWhile Char.isWhitespace).reverse⟩

/-- Python `str.lower()` (over the ASCII range that the device names use). -/
def pyLower (s : String) : String :=
  ⟨s.data.map Char.toLower⟩

/-- A recognition result (`RecognitionResult` dataclass, engine.py lines
16-20) without the wall-clock `latency_ms` field. -/
structure RecognitionResult where
  text : String
  isFinal : Bool
deriving DecidableEq

/-- Python `int()` applied to a float value: truncation toward zero. -/
def qtrunc (q : ℚ) : ℤ :=
  if 0 ≤ q then ⌊q⌋ else ⌈q⌉

/-- `dst_len = int(duration * dst_sr)` with `duration = n / src_sr`
(engine.py lines 154-155). -/
def resampleDstLen (n srcSr dstSr : ℕ) : ℕ :=
  (qtrunc ((n : ℚ) / (srcSr : ℚ) * (dstSr : ℚ))).toNat

/-- Tail of one-dimensional linear interpolation: `x0, y0` is the last grid
point already passed; clamps to the last value beyond the grid (`np.interp`
semantics). -/
def interpGo (x0 y0 : ℚ) : List (ℚ × ℚ) → ℚ → ℚ
  | [], _ => y0
  | (x1, y1) :: rest, t =>
      if t ≤ x1 then y0 + (y1 - y0) * (t - x0) / (x1 - x0)
      else interpGo x1 y1 rest t

/-- One-dimensional linear interpolation over sorted grid points, clamping
outside the grid, as `np.interp` (engine.py line 160). -/
def interp (pts : List (ℚ × ℚ)) (t : ℚ) : ℚ :=
  match pts with
  | [] => 0
  | (x0, y0) :: rest => if t ≤ x0 then y0 else interpGo x0 y0 rest t

/-- `StreamingASREngine._resample_linear` (engine.py lines 150-160): identity
when the rates agree, otherwise linear interpolation from the uniform grid
`np.linspace(0, duration, n, endpoint=False)` onto
`np.linspace(0, duration, dst_len, endpoint=False)`, returning the empty
array when the computed output length is at most 1. -/
def resampleLinear (pcm : List ℚ) (srcSr dstSr : ℕ) : List ℚ :=
  if srcSr = dstSr then pcm
  else
    let n := pcm.length
    let dstLen := resampleDstLen n srcSr dstSr
    if dstLen ≤ 1 then []
    else
      let duration : ℚ := (n : ℚ) / (srcSr : ℚ)
      let pts := ((List.range n).map (fun i : ℕ => (i : ℚ) * duration / (n : ℚ))).zip pcm
      (List.range dstLen).map (fun i : ℕ => interp pts ((i : ℚ) * duration / (dstLen : ℚ)))

/-- One pass of the `while is_ready` decode-loop body of
`StreamingASREngine.accept_pcm` (engine.py lines 118-125): `h` is the
hypothesis text fetched by `get_result`; the state is the pending result
paired with the `_last_partial` cache.  A stripped, non-empty hypothesis that
differs from the cache replaces the pending result with a non-final one. -/
def hypStep (st : Option RecognitionResult × String) (h : String) :
    Option RecognitionResult × String :=
  if pyStrip h ≠ "" ∧ pyStrip h ≠ st.2 then (some ⟨pyStrip h, false⟩, pyStrip h)
  else st

/-- `StreamingASREngine.accept_pcm` decode/endpoint sequencing (engine.py
lines 114-135) over the decoder oracle: after the decode loop, if the
endpoint flag is set and the stripped endpoint hypothesis is non-empty, the
result is replaced by a final one and the `_last_partial` cache is cleared.
Returns the emitted result (if any) together with the new cache. -/
def acceptPcm (lastText : String) (hyps : List String) (endpoint : Bool)
    (endpointText : String) : Option RecognitionResult × String :=
  let st := hyps.foldl hypStep (none, lastText)
  if endpoint then
    if pyStrip endpointText ≠ "" then (some ⟨pyStrip endpointText, true⟩, "")
    else st
  else st

/-- Cross-thread state of `DeepgramStreamingASR`: the lock-protected result
buffer `_result_queue` and the `_last_partial` cache (engine.py lines
185-186). -/
structure DGState where
  resultQueue : List RecognitionResult
  lastText : String
deriving DecidableEq

/-- The fields of one inbound Deepgram message that
`DeepgramStreamingASR._on_message` reads (engine.py lines 218-243). -/
structure DGMessage where
  isFinalFlag : Bool
  typeIsResults : Bool
  hasAlternatives : Bool
  transcript : String
deriving DecidableEq

/-- `DeepgramStreamingASR._on_message` (engine.py lines 218-243): a message
is treated as final when its own flag is set or when it is a Results message
with alternatives; an empty stripped transcript is ignored; a final appends a
final result and clears the cache; a changed non-final transcript appends a
non-final result and updates the cache. -/
def dgOnMessage (st : DGState) (m : DGMessage) : DGState :=
  let isFin := m.isFinalFlag || (m.typeIsResults && m.hasAlternatives)
  let text := pyStrip m.transcript
  if text = "" then st
  else if isFin then
    { resultQueue := st.resultQueue ++ [⟨text, true⟩], lastText := "" }
  else if text ≠ st.lastText then
    { resultQueue := st.resultQueue ++ [⟨text, false⟩], lastText := text }
  else st

/-- The results appended to the Deepgram buffer by one inbound message. -/
def dgEmitted (st : DGState) (m : DGMessage) : List RecognitionResult :=
  (dgOnMessage st m).resultQueue.drop st.resultQueue.length

/-- `np.clip(x * 32767.0, -32768, 32767).astype(np.int16)` on one sample
(engine.py line 267): scale, clamp into the int16 range, truncate. -/
def toI16 (x : ℚ) : ℤ :=
  qtrunc (min (max (x * 32767) (-32768)) 32767)

/-- `DeepgramStreamingASR.accept_pcm` (engine.py lines 251-277) on mono
input: inline linear resample when the rates differ (returning no result when
the computed length is at most 1), conversion to int16, the websocket send
(`sendOk = false` models `self._ws.send` raising, caught by the
`try/except`), then a non-blocking pop of at most one buffered result. -/
def dgAcceptPcm (st : DGState) (pcm : List ℚ) (sampleRate selfRate : ℕ)
    (sendOk : Bool) : Option RecognitionResult × DGState :=
  let sendAndPop : List ℚ → Option RecognitionResult × DGState := fun p =>
    let _pcmI16 := p.map toI16
    if sendOk then
      match st.resultQueue with
      | [] => (none, st)
      | r :: rest => (some r, { st with resultQueue := rest })
    else (none, st)
  if sampleRate ≠ selfRate then
    let n := pcm.length
    let dstLen := resampleDstLen n sampleRate selfRate
    if dstLen ≤ 1 then (none, st)
    else
      let duration : ℚ := (n : ℚ) / (sampleRate : ℚ)
      let pts := ((List.range n).map (fun i : ℕ => (i : ℚ) * duration / (n : ℚ))).zip pcm
      sendAndPop ((List.range dstLen).map (fun i : ℕ => interp pts ((i : ℚ) * duration / (dstLen : ℚ))))
  else sendAndPop pcm

/-- The mutable state of `AudioCapture` relevant to `stop()`: the native
stream handle, the soundcard handle, the consumer thread handle, the running
flag and the frame queue (capture.py lines 31-39). -/
structure CaptureState where
  stream : Option Unit
  scMic : Option Unit
  consumerThread : Option Unit
  running : Bool
  frameQueue : List AudioFrame
deriving DecidableEq

/-- The `timeout` argument of `self._consumer_thread.join` in `stop()`
(capture.py line 310), in seconds. -/
def consumerJoinTimeoutSec : ℚ := 1

/-- `AudioCapture.stop` (capture.py lines 298-313): clear the running flag;
if a stream is open, stop and close it, with `finally` clearing the handle
even when the native call raises (`nativeFails`); then drop the soundcard
handle, join and drop the consumer thread, and empty the queue.  When the
native call raises, the exception propagates before the remaining teardown
runs.  Returns the raised exception (if any) with the new state. -/
def stop (nativeFails : Bool) (s : CaptureState) : Option Unit × CaptureState :=
  if s.stream.isSome && nativeFails then
    (some (), { s with stream := none, running := false })
  else
    (none, { stream := none, scMic := none, consumerThread := none,
             running := false, frameQueue := [] })

/-- The body of `AudioCapture._consumer_loop` over the frames it drains
(capture.py lines 101-112): each consumer call may raise
(`Except.error`), which is caught so the loop continues with the next frame.
Returns the trace of processed frames paired with whether the consumer call
succeeded. -/
def consumerLoopGo (consume : AudioFrame → Except Unit Unit) :
    List AudioFrame → List (AudioFrame × Bool)
  | [] => []
  | f :: rest =>
      match consume f with
      | Except.ok _ => (f, true) :: consumerLoopGo consume rest
      | Except.error _ => (f, false) :: consumerLoopGo consume rest

/-- `AudioCapture._consumer_loop` (capture.py lines 101-112): the loop runs
only while the running flag is set, draining the queue. -/
def consumerLoopRun (consume : AudioFrame → Except Unit Unit)
    (s : CaptureState) : List (AudioFrame × Bool) :=
  if s.running then consumerLoopGo consume s.frameQueue else []

/-- One entry of the sounddevice device list, with the fields
`_find_stereo_mix_device` reads. -/
structure DeviceInfo where
  name : String
  maxInputChannels : ℕ
deriving DecidableEq

/-- Python substring containment `pat in s` on strings. -/
def strContains (s pat : String) : Bool :=
  (List.range (s.data.length + 1)).any fun i => (s.data.drop i).take pat.data.length == pat.data

/-- The name test of `_find_stereo_mix_device` (capture.py line 77): the
lowercased device name contains one of the system-capture patterns. -/
def stereoMixNameMatch (name : String) : Bool :=
  let n := pyLower name
  strContains n "stereo mix" || strContains n "stereomix" || strContains n "wave"

/-- A device `_find_stereo_mix_device` accepts: at least one input channel
and a matching name (capture.py line 77). -/
def stereoMixCandidate (d : DeviceInfo) : Prop :=
  0 < d.maxInputChannels ∧ stereoMixNameMatch d.name = true

/-- The index scan of `_find_stereo_mix_device` starting at index `i`
(capture.py lines 68-78): first accepted device wins. -/
def findStereoMixFrom (i : ℕ) : List DeviceInfo → Option ℕ
  | [] => none
  | d :: rest =>
      if 0 < d.maxInputChannels ∧ stereoMixNameMatch d.name then some i
      else findStereoMixFrom (i + 1) rest

/-- `AudioCapture._find_stereo_mix_device` (capture.py lines 63-81). -/
def findStereoMixDevice (devices : List DeviceInfo) : Option ℕ :=
  findStereoMixFrom 0 devices

/-- Loopback-source resolution in `AudioCapture.start` when no WASAPI host
API is present, no explicit device index is set and the source mode is
internal (capture.py lines 150-155 and 180-204): the chosen capture device is
exactly the stereo-mix fallback. -/
def resolveLoopbackNoWasapi (devices : List DeviceInfo) : Option ℕ :=
  findStereoMixDevice devices

/-- The claim's device-name condition, in the spec's words: the entry's name
matches "Stereo Mix" (case-insensitive). -/
def specNameMatchesStereoMix (name : String) : Bool :=
  strContains (pyLower name) "stereo mix"

/-! ## Helper lemmas -/

theorem qputAll_cons (q : List AudioFrame) (f : AudioFrame)
    (fs : List AudioFrame) : qputAll q (f :: fs) = qputAll (qput q f) fs := rfl

/-- The decode loop of the local engine only ever stores non-final pending
results: any `some` produced by folding `hypStep` from a non-final-or-empty
start is non-final. -/
theorem hypFold_no_final (hyps : List String)
    (st : Option RecognitionResult × String)
    (hst : ∀ r, st.1 = some r → r.isFinal = false) :
    ∀ r, (hyps.foldl hypStep st).1 = some r → r.isFinal = false := by
  induction hyps generalizing st with
  | nil => exact hst
  | cons h t ih =>
      intro r hr
      refine ih (hypStep st h) ?_ r hr
      intro r' hr'
      unfold hypStep at hr'
      split at hr'
      · simp only [Prod.fst] at hr'
        cases hr'
        rfl
      · exact hst r' hr'

/-- `resampleDstLen` is the floor of the exact rational length, because the
truncated value is non-negative. -/
theorem resampleDstLen_eq_floor (n srcSr dstSr : ℕ) :
    resampleDstLen n srcSr dstSr =
      (⌊(n : ℚ) / (srcSr : ℚ) * (dstSr : ℚ)⌋).toNat := by
  unfold resampleDstLen qtrunc
  rw [if_pos (by positivity)]

/-- The index scan of `_find_stereo_mix_device` returns the index of the sole
accepted device, shifted by the start index. -/
theorem findStereoMixFrom_unique (devices : List DeviceInfo) :
    ∀ (k i : ℕ) (d : DeviceInfo),
      devices[i]? = some d → stereoMixCandidate d →
      (∀ j, j < i → ∀ d', devices[j]? = some d' → ¬ stereoMixCandidate d') →
      findStereoMixFrom k devices = some (k + i) := by
  induction devices with
  | nil =>
      intro k i d hd
      simp at hd
  | cons d0 rest ih =>
      intro k i d hd hc hprev
      unfold findStereoMixFrom
      cases i with
      | zero =>
          rw [List.getElem?_cons_zero, Option.some_inj] at hd
          subst hd
          unfold stereoMixCandidate at hc
          rw [if_pos hc]
          rfl
      | succ i' =>
          have h0 : ¬ stereoMixCandidate d0 :=
            hprev 0 (Nat.succ_pos _) d0 (by simp)
          unfold stereoMixCandidate at h0
          rw [if_neg h0]
          have hrec := ih (k + 1) i' d (by simpa using hd) hc ?_
          · rw [hrec]
            congr 1
            omega
          · intro j hj d' hd'
            exact hprev (j + 1) (by omega) d' (by simpa using hd')

/-! ## Claim theorems -/

/-- C1 (counterexample): the spec's bounded drop-newest queue is refuted by
the source queue (`queue.Queue()` has no capacity): pushing two frames into a
queue claimed to be of capacity 1 leaves both enqueued, so no capacity bound
holds and no frame is dropped. -/
theorem bounded_queue_claim_counterexample :
    ¬ boundedQueueClaim 1
      [{ samples := [], sampleRate := 0, timestamp := 0 },
       { samples := [], sampleRate := 0, timestamp := 0 }] := by
  unfold boundedQueueClaim qputAll
  decide

/-- C1 (amended): the capture-to-dispatcher queue is an unbounded FIFO:
pushing any producer sequence never blocks (the model is a total function),
appends the frames behind the existing contents in push order, and drops no
frame. -/
theorem capture_queue_unbounded_fifo (q fs : List AudioFrame) :
    qputAll q fs = q ++ fs := by
  induction fs generalizing q with
  | nil => simp [qputAll]
  | cons f t ih =>
      rw [qputAll_cons, ih, qput, List.append_assoc]
      rfl

/-- C2: in one `accept_pcm` call of the local engine, at most one result is
returned (the return type is an option), and whenever the endpoint flag is
set with a non-empty stripped final hypothesis, the returned result is that
final — regardless of any partial produced by the decode loop. -/
theorem accept_pcm_final_precedence (lastText : String) (hyps : List String)
    (endpointText : String) (hft : pyStrip endpointText ≠ "") :
    (acceptPcm lastText hyps true endpointText).1 =
      some ⟨pyStrip endpointText, true⟩ := by
  simp [acceptPcm, hft]

theorem accept_pcm_final_precedence_witness :
    (acceptPcm "" ["hel", "hello"] true "hello world").1 =
      some ⟨pyStrip "hello world", true⟩ :=
  accept_pcm_final_precedence "" ["hel", "hello"] "hello world" (by decide)

/-- C3: when the first `stop()` returns (no native-stream error escaped), a
second consecutive `stop()` raises nothing and changes nothing; after the
first `stop()` the native stream handle is released, the queue is emptied,
the running flag is cleared so the consumer loop delivers no further frame,
and the consumer thread is joined with the bounded 1-second wait. -/
theorem stop_idempotent_no_redelivery (b1 b2 : Bool) (s : CaptureState)
    (consume : AudioFrame → Except Unit Unit)
    (hret : (stop b1 s).1 = none) :
    (stop b2 (stop b1 s).2).1 = none ∧
    (stop b2 (stop b1 s).2).2 = (stop b1 s).2 ∧
    (stop b1 s).2.stream = none ∧
    (stop b1 s).2.frameQueue = [] ∧
    (stop b1 s).2.running = false ∧
    consumerLoopRun consume (stop b1 s).2 = [] ∧
    consumerJoinTimeoutSec = 1 := by
  have hs : (stop b1 s).2 =
      { stream := none, scMic := none, consumerThread := none,
        running := false, frameQueue := [] } := by
    unfold stop at hret ⊢
    split at hret
    · simp at hret
    · rw [if_neg (by assumption)]
  rw [hs]
  refine ⟨?_, ?_, rfl, rfl, rfl, rfl, rfl⟩
  · unfold stop
    rw [if_neg (by simp)]
  · unfold stop
    rw [if_neg (by simp)]

theorem stop_idempotent_no_redelivery_witness :
    (stop true (stop false
        ⟨some (), none, some (), true,
         [{ samples := [], sampleRate := 0, timestamp := 0 }]⟩).2).1 = none ∧
    (stop true (stop false
        ⟨some (), none, some (), true,
         [{ samples := [], sampleRate := 0, timestamp := 0 }]⟩).2).2 =
      (stop false
        ⟨some (), none, some (), true,
         [{ samples := [], sampleRate := 0, timestamp := 0 }]⟩).2 ∧
    (stop false
        ⟨some (), none, some (), true,
         [{ samples := [], sampleRate := 0, timestamp := 0 }]⟩).2.stream = none ∧
    (stop false
        ⟨some (), none, some (), true,
         [{ samples := [], sampleRate := 0, timestamp := 0 }]⟩).2.frameQueue = [] ∧
    (stop false
        ⟨some (), none, some (), true,
         [{ samples := [], sampleRate := 0, timestamp := 0 }]⟩).2.running = false ∧
    consumerLoopRun (fun _ => Except.ok ())
      (stop false
        ⟨some (), none, some (), true,
         [{ samples := [], sampleRate := 0, timestamp := 0 }]⟩).2 = [] ∧
    consumerJoinTimeoutSec = 1 :=
  stop_idempotent_no_redelivery false true
    ⟨some (), none, some (), true,
     [{ samples := [], sampleRate := 0, timestamp := 0 }]⟩
    (fun _ => Except.ok ()) rfl

/-- C4: when the websocket send raises, the Deepgram `accept_pcm` swallows
the exception: it returns no result and leaves the result buffer and cache
untouched; no failure propagates (the model is a total function). -/
theorem dg_send_failure_swallowed (st : DGState) (pcm : List ℚ)
    (sampleRate selfRate : ℕ) :
    dgAcceptPcm st pcm sampleRate selfRate false = (none, st) := by
  simp only [dgAcceptPcm, Bool.false_eq_true, if_false]
  split <;> [split <;> rfl; rfl]

/-- C5: the dispatcher loop processes every drained frame in order, whether
or not the per-frame consumer call raises: the catch-and-continue in
`_consumer_loop` means no per-frame exception removes a later frame from the
trace or terminates the loop. -/
theorem consumer_loop_survives_frame_errors
    (consume : AudioFrame → Except Unit Unit) (frames : List AudioFrame) :
    (consumerLoopGo consume frames).map Prod.fst = frames := by
  induction frames with
  | nil => rfl
  | cons f rest ih =>
      cases hc : consume f <;> simp [consumerLoopGo, hc, ih]

/-- C6: for distinct positive source rate and any destination rate, the
resampler returns the empty array when the exact output length
`floor(len / src * dst)` is at most 1, and otherwise an array of exactly
that length. -/
theorem resample_output_length (pcm : List ℚ) (srcSr dstSr : ℕ)
    (hne : srcSr ≠ dstSr) (hpos : 0 < srcSr) :
    (⌊(pcm.length : ℚ) / (srcSr : ℚ) * (dstSr : ℚ)⌋ ≤ 1 →
        resampleLinear pcm srcSr dstSr = []) ∧
    (1 < ⌊(pcm.length : ℚ) / (srcSr : ℚ) * (dstSr : ℚ)⌋ →
        ((resampleLinear pcm srcSr dstSr).length : ℤ) =
          ⌊(pcm.length : ℚ) / (srcSr : ℚ) * (dstSr : ℚ)⌋) := by
  have hfloor0 : 0 ≤ ⌊(pcm.length : ℚ) / (srcSr : ℚ) * (dstSr : ℚ)⌋ :=
    Int.floor_nonneg.mpr (by positivity)
  have hdst := resampleDstLen_eq_floor pcm.length srcSr dstSr
  constructor
  · intro hle
    simp only [resampleLinear]
    rw [if_neg hne, if_pos]
    rw [hdst]
    exact Int.toNat_le.mpr hle
  · intro hlt
    simp only [resampleLinear]
    rw [if_neg hne, if_neg]
    · simp only [List.length_map, List.length_range]
      rw [hdst, Int.toNat_of_nonneg hfloor0]
    · rw [hdst]
      have : 1 < (⌊(pcm.length : ℚ) / (srcSr : ℚ) * (dstSr : ℚ)⌋).toNat :=
        Int.lt_toNat.mpr hlt
      omega

theorem resample_output_length_witness :
    ((resampleLinear [0, 0] 1 2).length : ℤ) =
      ⌊((([0, 0] : List ℚ).length : ℚ) / ((1 : ℕ) : ℚ)) * ((2 : ℕ) : ℚ)⌋ :=
  (resample_output_length [0, 0] 1 2 (by decide) (by decide)).2 (by norm_num)

/-- C7: the resampler is the identity when source and destination rates
agree, and maps the empty array to the empty array for any pair of rates. -/
theorem resample_identity_and_empty :
    (∀ (r : ℕ) (pcm : List ℚ), resampleLinear pcm r r = pcm) ∧
    (∀ (r1 r2 : ℕ), resampleLinear ([] : List ℚ) r1 r2 = []) := by
  constructor
  · intro r pcm
    simp [resampleLinear]
  · intro r1 r2
    unfold resampleLinear
    split
    · rfl
    · simp [resampleDstLen, qtrunc]

/-- C8: in both backends, whenever a final result is emitted the cached
last-emitted text is cleared to the empty string, and a single decode step
emits at most one result: the local `accept_pcm` returns an option whose
final case resets `_last_partial` to `""`, and one Deepgram message appends
at most one result and resets `_last_partial` to `""` when that result is
final. -/
theorem final_clears_cached_text :
    (∀ (lastText : String) (hyps : List String) (ep : Bool)
        (et : String) (r : RecognitionResult),
      (acceptPcm lastText hyps ep et).1 = some r → r.isFinal = true →
      (acceptPcm lastText hyps ep et).2 = "") ∧
    (∀ (st : DGState) (m : DGMessage) (r : RecognitionResult),
      dgEmitted st m = [r] → r.isFinal = true →
      (dgOnMessage st m).lastText = "") ∧
    (∀ (st : DGState) (m : DGMessage), (dgEmitted st m).length ≤ 1) := by
  refine ⟨?_, ?_, ?_⟩
  · intro lastText hyps ep et r hr hfin
    have hpart : ∀ r', (hyps.foldl hypStep (none, lastText)).1 = some r' →
        r'.isFinal = false :=
      hypFold_no_final hyps (none, lastText) (by intro r' h; cases h)
    unfold acceptPcm at hr ⊢
    cases ep with
    | false =>
        simp only [Bool.false_eq_true, if_false] at hr ⊢
        rw [hpart r hr] at hfin
        cases hfin
    | true =>
        simp only [if_true] at hr ⊢
        by_cases het : pyStrip et ≠ ""
        · rw [if_pos het]
        · rw [if_neg het] at hr ⊢
          rw [hpart r hr] at hfin
          cases hfin
  · intro st m r hem hfin
    unfold dgEmitted dgOnMessage at hem
    unfold dgOnMessage
    by_cases h1 : pyStrip m.transcript = ""
    · rw [if_pos h1, List.drop_length] at hem
      cases hem
    · rw [if_neg h1] at hem ⊢
      by_cases h2 : (m.isFinalFlag || (m.typeIsResults && m.hasAlternatives)) = true
      · rw [if_pos h2]
      · rw [if_neg h2] at hem ⊢
        by_cases h3 : pyStrip m.transcript ≠ st.lastText
        · rw [if_pos h3, List.drop_left] at hem
          injection hem with h4 h5
          rw [← h4] at hfin
          simp at hfin
        · rw [if_neg h3, List.drop_length] at hem
          cases hem
  · intro st m
    unfold dgEmitted dgOnMessage
    by_cases h1 : pyStrip m.transcript = ""
    · rw [if_pos h1, List.drop_length]
      exact Nat.zero_le 1
    · rw [if_neg h1]
      by_cases h2 : (m.isFinalFlag || (m.typeIsResults && m.hasAlternatives)) = true
      · rw [if_pos h2]
        simp [List.drop_left]
      · rw [if_neg h2]
        by_cases h3 : pyStrip m.transcript ≠ st.lastText
        · rw [if_pos h3]
          simp [List.drop_left]
        · rw [if_neg h3, List.drop_length]
          exact Nat.zero_le 1

theorem final_clears_cached_text_witness :
    (acceptPcm "prev" ["hi"] true "ok").2 = "" ∧
    (dgOnMessage ⟨[], "hel"⟩ ⟨true, false, false, "done"⟩).lastText = "" :=
  ⟨final_clears_cached_text.1 "prev" ["hi"] true "ok" ⟨pyStrip "ok", true⟩
      (by decide) rfl,
   final_clears_cached_text.2.1 ⟨[], "hel"⟩ ⟨true, false, false, "done"⟩
      ⟨pyStrip "done", true⟩ (by decide) rfl⟩

/-- C9 (counterexample): a device list whose single entry is named
"Stereo Mix" but reports no input channel refutes the claim: the name
matches the spec's condition, there is exactly one entry, no WASAPI loopback
is available, yet resolution selects no device at all (the code also
requires `max_input_channels > 0`). -/
theorem stereo_mix_claim_counterexample :
    specNameMatchesStereoMix "Stereo Mix" = true ∧
    [({ name := "Stereo Mix", maxInputChannels := 0 } : DeviceInfo)].length = 1 ∧
    resolveLoopbackNoWasapi
      [{ name := "Stereo Mix", maxInputChannels := 0 }] = none := by
  refine ⟨by decide, rfl, by decide⟩

/-- C9 (amended): when the device list contains exactly one entry with at
least one input channel whose lowercased name contains one of the
system-capture patterns ("stereo mix", "stereomix", "wave"), resolving the
loopback source with no native loopback API selects that entry's index. -/
theorem stereo_mix_unique_candidate_selected (devices : List DeviceInfo)
    (i : ℕ) (d : DeviceInfo) (hd : devices[i]? = some d)
    (hc : stereoMixCandidate d)
    (huniq : ∀ j d', devices[j]? = some d' → stereoMixCandidate d' → j = i) :
    resolveLoopbackNoWasapi devices = some i := by
  unfold resolveLoopbackNoWasapi findStereoMixDevice
  have h := findStereoMixFrom_unique devices 0 i d hd hc ?_
  · simpa using h
  · intro j hj d' hd' hc'
    exact absurd (huniq j d' hd' hc') (by omega)

theorem stereo_mix_unique_candidate_selected_witness :
    resolveLoopbackNoWasapi
      [{ name := "Speakers", maxInputChannels := 0 },
       { name := "Stereo Mix", maxInputChannels := 2 }] = some 1 :=
  stereo_mix_unique_candidate_selected
    [{ name := "Speakers", maxInputChannels := 0 },
     { name := "Stereo Mix", maxInputChannels := 2 }] 1
    { name := "Stereo Mix", maxInputChannels := 2 } (by decide)
    (by unfold stereoMixCandidate; decide)
    (fun j d' hj hc => by
      match j with
      | 0 =>
          rw [List.getElem?_cons_zero, Option.some_inj] at hj
          rw [← hj] at hc
          unfold stereoMixCandidate at hc
          exact absurd hc.1 (by decide)
      | 1 => rfl
      | n + 2 => simp at hj)

/-- C10: for every input sample, including values outside the unit range,
the Deepgram float-to-int16 conversion clips before casting, so the produced
value always lies in the representable int16 interval and never wraps. -/
theorem i16_conversion_in_range (x : ℚ) :
    -32768 ≤ toI16 x ∧ toI16 x ≤ 32767 := by
  unfold toI16 qtrunc
  have h1 : (-32768 : ℚ) ≤ min (max (x * 32767) (-32768)) 32767 :=
    le_min (le_max_right _ _) (by norm_num)
  have h2 : min (max (x * 32767) (-32768)) 32767 ≤ 32767 := min_le_right _ _
  split
  · constructor
    · have h3 : (0 : ℤ) ≤ ⌊min (max (x * 32767) (-32768)) 32767⌋ :=
        Int.floor_nonneg.mpr (by assumption)
      omega
    · have h4 := Int.floor_mono h2
      rw [show ⌊(32767 : ℚ)⌋ = 32767 by norm_num] at h4
      exact h4
  · constructor
    · have h5 := Int.ceil_mono h1
      rw [show ⌈(-32768 : ℚ)⌉ = -32768 by
        rw [show ((-32768 : ℚ)) = ((-32768 : ℤ) : ℚ) by norm_num,
          Int.ceil_intCast]] at h5
      exact h5
    · have h6 : min (max (x * 32767) (-32768)) 32767 ≤ 0 :=
        le_of_lt (lt_of_not_ge (by assumption))
      have h7 := Int.ceil_mono h6
      rw [Int.ceil_zero] at h7
      omega

end LocalCaption
